import Mathlib

/-!
Shallow embedding of the connection-pool core of the `python-framework`
repository (`src/python_framework/db/connection_pool.py`,
`src/python_framework/db/postgresutils.py`, `src/db/transaction_manager.py`),
together with theorems settling the specification claims about it.

Modelling conventions:
* Python `int` is `Int` (Python integers are unbounded and signed — the
  rotation cursor really can go negative).
* Python list indexing `xs[i]` is `pyListGet xs i`, which implements
  Python's negative-index semantics and returns `none` for an `IndexError`.
* Locks are modelled as boolean "held" flags; the code is embedded as a
  sequential state-transformer (one acquiring thread), which is the setting
  of every claim under study (the claims quantify over operation sequences,
  not interleavings).
* Exceptions are `Except PyError` / `Option PyError` results.
* `uuid4()` identities are modelled by a fresh-`Nat` supply on the pool.
-/

namespace PythonFramework

/-- Python exceptions that the embedded code can raise. -/
inductive PyError
  /-- e.g. `None.rollback()` or calling a missing attribute. -/
  | attributeError
  /-- e.g. releasing an unheld `threading.Lock`. -/
  | runtimeError
  /-- `IndexError` from list indexing. -/
  | indexError
  /-- an explicitly raised `Exception(msg)`. -/
  | exception (msg : String)
deriving DecidableEq

/-- Equality of `Except` results is decidable (needed to evaluate the
embedded operations on concrete states). -/
instance exceptDecEq {ε α : Type} [DecidableEq ε] [DecidableEq α] :
    DecidableEq (Except ε α)
  | .error a, .error b =>
    if h : a = b then .isTrue (by rw [h])
    else .isFalse (fun hh => h (by cases hh; rfl))
  | .error _, .ok _ => .isFalse (fun hh => Except.noConfusion hh)
  | .ok _, .error _ => .isFalse (fun hh => Except.noConfusion hh)
  | .ok a, .ok b =>
    if h : a = b then .isTrue (by rw [h])
    else .isFalse (fun hh => h (by cases hh; rfl))

/-- Python list indexing `xs[i]`: negative indices count from the end;
an out-of-range access (`IndexError`) is `none`. -/
def pyListGet {α : Type} (xs : List α) (i : Int) : Option α :=
  if i < 0 then
    if (xs.length : Int) + i < 0 then none
    else xs.get? ((xs.length : Int) + i).toNat
  else xs.get? i.toNat

/-- A physical database connection (`sqlalchemy` `Connection`), as far as the
pool core observes it: an identity and its `closed` flag. -/
structure PhysConn where
  connId : Nat
  closed : Bool
deriving DecidableEq

/-- A `sqlalchemy` `Transaction`: identity plus whether it is still open. -/
structure DbTransaction where
  tid : Nat
  active : Bool
deriving DecidableEq

/-- `WaitableConnection`: wraps one physical connection, a mutual-exclusion
lock (its held/free state), the open-transaction reference and the busy flag.
The `_pool` back-reference of the source is broken by passing the pool state
explicitly to the operations that need it. -/
structure WaitableConnection where
  /-- `_id` (a `uuid4` string in the source, a fresh `Nat` here). -/
  wid : Nat
  /-- `_connection` (`None` possible). -/
  connection : Option PhysConn
  /-- whether `_lock` is currently held. -/
  lockHeld : Bool
  /-- `_transaction` (`None` until first use; kept, stale, after close). -/
  transaction : Option DbTransaction
  /-- `_in_use`. -/
  inUse : Bool
deriving DecidableEq

/-- `WaitableConnection.is_healthy`:
`self._connection is not None and not self._connection.closed`. -/
def WaitableConnection.is_healthy (w : WaitableConnection) : Bool :=
  match w.connection with
  | none => false
  | some c => !c.closed

/-- `WaitableConnection.__eq__`: same class and equal `_id`. -/
def WaitableConnection.pyEq (a b : WaitableConnection) : Bool :=
  a.wid == b.wid

/-- `AtomicInt`: an integer value behind a lock (the lock only serialises the
individual operations, so it is elided in this sequential embedding). -/
structure AtomicInt where
  value : Int
deriving DecidableEq

/-- `AtomicInt.get`. -/
def AtomicInt.get (a : AtomicInt) : Int := a.value

/-- `AtomicInt.set`. -/
def AtomicInt.set (_a : AtomicInt) (v : Int) : AtomicInt := ⟨v⟩

/-- `AtomicInt.inc`. -/
def AtomicInt.inc (a : AtomicInt) : AtomicInt := ⟨a.value + 1⟩

/-- `AtomicInt.dec`. -/
def AtomicInt.dec (a : AtomicInt) : AtomicInt := ⟨a.value - 1⟩

/-- `AtomicInt.next(max)`: returns the current value, and stores `0` when
`current + 1 > max`, `current + 1` otherwise. -/
def AtomicInt.next (a : AtomicInt) (max : Int) : Int × AtomicInt :=
  let current := a.value
  if current + 1 > max then (current, ⟨0⟩)
  else (current, ⟨current + 1⟩)

/-- `ConnectionCycle`: the rotation — items list plus rotating cursor.
The `_items_lock` only serialises operations and is elided; `cycle`'s
wait-on-lock branch collapses to the plain `_cycle` body sequentially. -/
structure ConnectionCycle where
  items : List WaitableConnection
  pointer : AtomicInt
deriving DecidableEq

/-- `ConnectionCycle.size`. -/
def ConnectionCycle.size (c : ConnectionCycle) : Nat := c.items.length

/-- `ConnectionCycle.add`: append; does not touch the cursor. -/
def ConnectionCycle.add (c : ConnectionCycle) (w : WaitableConnection) :
    ConnectionCycle :=
  { c with items := c.items ++ [w] }

/-- `ConnectionCycle._delete_by_index`: removes the entry at `index` (a
non-negative Python index); first adjusts the pointer iff it is at or past
`index`: to `0` when `pointer >= len(items) - 1`, else decremented. Returns
the removed connection (`none` when `index` is out of range and nothing
happens). -/
def ConnectionCycle.deleteByIndex (c : ConnectionCycle) (index : Nat) :
    Option WaitableConnection × ConnectionCycle :=
  if index ≥ c.items.length then (none, c)
  else
    (c.items.get? index,
     { items := c.items.eraseIdx index
       pointer :=
         if c.pointer.get ≥ (index : Int) then
           if c.pointer.get ≥ (c.items.length : Int) - 1 then c.pointer.set 0
           else c.pointer.dec
         else c.pointer })

/-- `ConnectionCycle.delete`: linear search for the first item `pyEq` to
`connection`; when found, delete it by index and return `true`, else return
`false` with the state untouched. -/
def ConnectionCycle.delete (c : ConnectionCycle) (connection : WaitableConnection) :
    Bool × ConnectionCycle :=
  match c.items.findIdx? (fun x => x.pyEq connection) with
  | none => (false, c)
  | some index => (true, (c.deleteByIndex index).2)

/-- `ConnectionCycle.peek`: the item at the current cursor, without advancing;
`none` when empty; `IndexError` when the cursor does not index the list. -/
def ConnectionCycle.peek (c : ConnectionCycle) :
    Except PyError (Option WaitableConnection) :=
  if c.items.length = 0 then .ok none
  else
    match pyListGet c.items c.pointer.get with
    | some w => .ok (some w)
    | none => .error .indexError

/-- `ConnectionCycle.cycle`: `none` when empty; otherwise advance the cursor
via `AtomicInt.next(len - 1)` and return the item at the pre-advance cursor
(`IndexError` when that cursor does not index the list). -/
def ConnectionCycle.cycle (c : ConnectionCycle) :
    Except PyError (Option WaitableConnection) × ConnectionCycle :=
  if c.items.length = 0 then (.ok none, c)
  else
    let r := c.pointer.next ((c.items.length : Int) - 1)
    match pyListGet c.items r.1 with
    | some w => (.ok (some w), { c with pointer := r.2 })
    | none => (.error .indexError, { c with pointer := r.2 })

/-- `ConnectionPool` state: the rotation, the append-only `_connections`
mirror list, the structural `_lock`'s held flag, `_max_pool_size`, a fresh
identity supply standing in for `uuid4()` / new physical connections, and
whether `self._engine.connect()` currently succeeds (the factory's health,
an environment fact the source observes through exceptions). -/
structure ConnectionPool where
  connectionCycle : ConnectionCycle
  connections : List WaitableConnection
  lockHeld : Bool
  maxPoolSize : Nat
  nextId : Nat
  factoryOk : Bool
deriving DecidableEq

/-- `ConnectionPool.size`. -/
def ConnectionPool.size (p : ConnectionPool) : Nat := p.connectionCycle.size

/-- `self._engine.connect()`: a fresh open physical connection when the
factory is healthy, an exception otherwise. -/
def ConnectionPool.rawConnect (p : ConnectionPool) :
    Except PyError PhysConn × ConnectionPool :=
  if p.factoryOk then
    (.ok { connId := p.nextId, closed := false }, { p with nextId := p.nextId + 1 })
  else (.error (.exception "connect failed"), p)

/-- `ConnectionPool._create_connection`: when the rotation is at or above
`_max_pool_size`, degrade to `cycle()`; otherwise connect, wrap in a fresh
`WaitableConnection`, append it to `_connections` and to the rotation, and
return it. -/
def ConnectionPool.createConnectionImpl (p : ConnectionPool) :
    Except PyError (Option WaitableConnection) × ConnectionPool :=
  if p.connectionCycle.size ≥ p.maxPoolSize then
    let r := p.connectionCycle.cycle
    (r.1, { p with connectionCycle := r.2 })
  else
    let r := p.rawConnect
    match r.1 with
    | .error e => (.error e, r.2)
    | .ok conn =>
      let w : WaitableConnection :=
        { wid := p.nextId, connection := some conn, lockHeld := false
          transaction := none, inUse := false }
      (.ok (some w),
       { r.2 with
           connections := r.2.connections ++ [w]
           connectionCycle := r.2.connectionCycle.add w })

/-- `ConnectionPool.create_connection` with `raw_connection_only=False`:
engine creation is elided (modelled by `factoryOk`); `lock=True` wraps
`_create_connection` in `with self._lock`, which sequentially is just the
body. -/
def ConnectionPool.create_connection (p : ConnectionPool) (_lock : Bool) :
    Except PyError (Option WaitableConnection) × ConnectionPool :=
  p.createConnectionImpl

/-- `ConnectionPool.remove_connection`: pool-locked delegation to
`ConnectionCycle.delete`; returns whether something was removed. -/
def ConnectionPool.remove_connection (p : ConnectionPool)
    (connection : WaitableConnection) : Bool × ConnectionPool :=
  let r := p.connectionCycle.delete connection
  (r.1, { p with connectionCycle := r.2 })

/-- `ConnectionPool.get_connection`: grow when the rotation is empty, or when
(size < max and the handle at the cursor is busy and the pool lock is free);
otherwise `cycle()`. The `peek().in_use()` read happens before the lock
check, exactly as in the source's short-circuit condition; a `peek()` that
raises propagates, and `peek()` returning `None` makes `None.in_use()` an
`AttributeError` (unreachable for a non-empty rotation). -/
def ConnectionPool.get_connection (p : ConnectionPool) :
    Except PyError (Option WaitableConnection) × ConnectionPool :=
  if p.connectionCycle.size = 0 then p.create_connection true
  else if p.connectionCycle.size < p.maxPoolSize then
    match p.connectionCycle.peek with
    | .error e => (.error e, p)
    | .ok none => (.error .attributeError, p)
    | .ok (some w) =>
      if w.inUse && !p.lockHeld then p.create_connection true
      else
        let r := p.connectionCycle.cycle
        (r.1, { p with connectionCycle := r.2 })
  else
    let r := p.connectionCycle.cycle
    (r.1, { p with connectionCycle := r.2 })

/-- `WaitableConnection.self_heal` (caller already holds the lock): close the
old physical connection ignoring errors (it is discarded either way), then
request a raw connection from the pool; on success install it and return
`true`; on failure remove this handle from the pool's rotation and return
`false`. -/
def WaitableConnection.self_heal (w : WaitableConnection) (p : ConnectionPool) :
    Bool × WaitableConnection × ConnectionPool :=
  let r := p.rawConnect
  match r.1 with
  | .ok conn => (true, { w with connection := some conn }, r.2)
  | .error _ => (false, w, (r.2.remove_connection w).2)

/-- One instrumentation event: a self-heal attempt, recording whether the
handle's lock was held when it ran. -/
inductive HealEvent
  | healAttempt (lockHeldDuring : Bool)
deriving DecidableEq

/-- `WaitableConnection.start_transaction`: blocking acquire of the handle
lock (modelled: the acquiring state change; theorems supply a free lock),
mark busy; if unhealthy and self-heal fails, mark idle, release the lock and
raise; otherwise open a new transaction (identity `tid`) on the (possibly
healed) connection and return it. Also returns the list of self-heal
attempts made during the call, each tagged with the lock state at that
moment. -/
def WaitableConnection.start_transaction (w : WaitableConnection)
    (p : ConnectionPool) (tid : Nat) :
    Except PyError PhysConn × WaitableConnection × ConnectionPool ×
      List HealEvent :=
  let w1 : WaitableConnection := { w with lockHeld := true, inUse := true }
  if w1.is_healthy then
    match w1.connection with
    | some c =>
      (.ok c, { w1 with transaction := some { tid := tid, active := true } },
       p, [])
    | none => (.error .attributeError, w1, p, [])
  else
    let r := w1.self_heal p
    let events := [HealEvent.healAttempt w1.lockHeld]
    if r.1 then
      match r.2.1.connection with
      | some c =>
        (.ok c,
         { r.2.1 with transaction := some { tid := tid, active := true } },
         r.2.2, events)
      | none => (.error .attributeError, r.2.1, r.2.2, events)
    else
      (.error (.exception "Failed to start transaction - connection could not self-heal"),
       { r.2.1 with inUse := false, lockHeld := false }, r.2.2, events)

/-- `WaitableConnection.rollback_transaction(exc_val)`: roll back the open
transaction (`None._transaction.rollback()` is an `AttributeError`), mark
idle, release the lock (releasing an unheld `threading.Lock` raises
`RuntimeError`). Returns the handle state at exit and the raised exception,
if any. -/
def WaitableConnection.rollback_transaction (w : WaitableConnection)
    (_exc_val : Option String) : WaitableConnection × Option PyError :=
  match w.transaction with
  | none => (w, some .attributeError)
  | some t =>
    let w1 : WaitableConnection :=
      { w with transaction := some { t with active := false }, inUse := false }
    if w.lockHeld then ({ w1 with lockHeld := false }, none)
    else (w1, some .runtimeError)

/-- `WaitableConnection.commit_transaction`: commit the open transaction,
mark idle, release the lock; same failure modes as rollback. -/
def WaitableConnection.commit_transaction (w : WaitableConnection) :
    WaitableConnection × Option PyError :=
  match w.transaction with
  | none => (w, some .attributeError)
  | some t =>
    let w1 : WaitableConnection :=
      { w with transaction := some { t with active := false }, inUse := false }
    if w.lockHeld then ({ w1 with lockHeld := false }, none)
    else (w1, some .runtimeError)

/-- Which of the two transaction-closing operations a context-manager exit
ran, with the `exc_val` argument it passed to `rollback_transaction`. -/
inductive ExitAction
  | committed
  | rolledBack (excVal : Option String)
deriving DecidableEq

/-- `WaitableConnection.__exit__`: on an exception, `rollback_transaction(exc_val)`
then `exc_tb.print_exc(file=stdout)` — traceback objects have no `print_exc`
attribute, so that line itself raises `AttributeError` after the rollback
has run; on normal exit, `commit_transaction()` and return `True`. The
result records (handle state, actions run, raised exception, returned bool). -/
def WaitableConnection.exitCtx (w : WaitableConnection) (excVal : Option String) :
    WaitableConnection × List ExitAction × Option PyError × Option Bool :=
  match excVal with
  | some e =>
    let r := w.rollback_transaction (some e)
    match r.2 with
    | some pe => (r.1, [.rolledBack (some e)], some pe, none)
    | none => (r.1, [.rolledBack (some e)], some .attributeError, none)
  | none =>
    let r := w.commit_transaction
    (r.1, [.committed], r.2, if r.2.isSome then none else some true)

/-- `TransactionManager.__exit__`: on an exception, `rollback_transaction()`
with no argument (so `exc_val` defaults to `None`) and return `False`; on
normal exit, `commit_transaction()` and return `True`. -/
def TransactionManager.exitCtx (w : WaitableConnection) (excVal : Option String) :
    WaitableConnection × List ExitAction × Option PyError × Option Bool :=
  match excVal with
  | some _ =>
    let r := w.rollback_transaction none
    (r.1, [.rolledBack none], r.2, if r.2.isSome then none else some false)
  | none =>
    let r := w.commit_transaction
    (r.1, [.committed], r.2, if r.2.isSome then none else some true)

/-- `ConnectionDetails` (`postgresutils.py`): immutable endpoint identity.
`port` is carried as the string it is rendered as. -/
structure ConnectionDetails where
  dialect : String
  driver : String
  host : String
  port : String
  database : String
  user : String
  password : String
  schema : String
  disable_ssl : Bool
deriving DecidableEq

/-- `ConnectionDetails.get_key`:
`f"{self.host}:{self.port}:{self.database}:{self.user}:{self.schema}"`. -/
def ConnectionDetails.get_key (cd : ConnectionDetails) : String :=
  cd.host ++ ":" ++ cd.port ++ ":" ++ cd.database ++ ":" ++ cd.user ++ ":"
    ++ cd.schema

/-- The dictionary `__repr__` builds: a deep copy of `__dict__` (attribute
insertion order) with `"password"` overwritten by `"******"`. -/
def ConnectionDetails.reprDict (cd : ConnectionDetails) :
    List (String × String) :=
  [("dialect", cd.dialect), ("driver", cd.driver), ("host", cd.host),
   ("port", cd.port), ("database", cd.database), ("user", cd.user),
   ("password", "******"), ("schema", cd.schema),
   ("disable_ssl", if cd.disable_ssl then "True" else "False")]

/-- Rendering of one `key: value` entry of a Python dict's `str`. -/
def renderEntry (kv : String × String) : String :=
  "'" ++ kv.1 ++ "': '" ++ kv.2 ++ "'"

/-- `ConnectionDetails.__repr__`: `str` of the masked attribute dict. -/
def ConnectionDetails.reprStr (cd : ConnectionDetails) : String :=
  "\x7b" ++ String.intercalate ", " (cd.reprDict.map renderEntry) ++ "\x7d"

/-- The pool operations quantified over by the bound-invariant claim:
`get_connection`, non-raw `create_connection(lock)`, and
`remove_connection(w)`. -/
inductive PoolOp
  | getConn
  | createConn (lock : Bool)
  | removeConn (w : WaitableConnection)

/-- Apply one pool operation (discarding the returned handle/flag). -/
def ConnectionPool.applyOp (p : ConnectionPool) : PoolOp → ConnectionPool
  | .getConn => p.get_connection.2
  | .createConn lock => (p.create_connection lock).2
  | .removeConn w => (p.remove_connection w).2

/-- Apply a sequence of pool operations, left to right. -/
def ConnectionPool.applyOps (p : ConnectionPool) : List PoolOp → ConnectionPool
  | [] => p
  | op :: ops => (p.applyOp op).applyOps ops

/-- The caller-side effect of `start_transaction` / `commit_transaction` on
the busy flag of the pooled handle with identity `wid` (the rotation holds
the very object the caller mutates, so the flag changes in place). -/
def ConnectionPool.setInUse (p : ConnectionPool) (wid : Nat) (b : Bool) :
    ConnectionPool :=
  { p with connectionCycle :=
      { p.connectionCycle with
          items := p.connectionCycle.items.map
            (fun w => if w.wid = wid then { w with inUse := b } else w) } }

/-- State of the rotation after `n` consecutive `cycle()` calls. -/
def ConnectionCycle.iterCycle (c : ConnectionCycle) : Nat → ConnectionCycle
  | 0 => c
  | n + 1 => (c.iterCycle n).cycle.2

/-- Result of the `(n+1)`-th of a run of consecutive `cycle()` calls. -/
def ConnectionCycle.cycleResult (c : ConnectionCycle) (n : Nat) :
    Except PyError (Option WaitableConnection) :=
  ((c.iterCycle n).cycle).1

/-- The spec's grow condition for `get_connection`, written from the spec's
words ("the rotation is empty, or (`rotation.size < max_size` and the handle
at the cursor is busy and no structural-mutation lock is currently held)"),
to be compared against what `get_connection` actually does. -/
def specGrowCond (p : ConnectionPool) : Bool :=
  p.size == 0 ||
    (decide (p.size < p.maxPoolSize) &&
      (match p.connectionCycle.peek with
       | .ok (some u) => u.inUse
       | _ => false) &&
      !p.lockHeld)

/-- A fresh idle healthy handle with identity `k`, for concrete test states. -/
def idleHandle (k : Nat) : WaitableConnection :=
  { wid := k, connection := some { connId := k, closed := false }
    lockHeld := false, transaction := none, inUse := false }

/-! ## Theorems -/

/-- Generic helper: a Python list access with `-len ≤ i < len` succeeds. -/
theorem pyListGet_isSome {α : Type} (l : List α) (i : Int)
    (h1 : -(l.length : Int) ≤ i) (h2 : i < (l.length : Int)) :
    ∃ x, pyListGet l i = some x := by
  unfold pyListGet
  by_cases hi : i < 0
  · have hj0 : ¬ ((l.length : Int) + i < 0) := by omega
    have hlt : ((l.length : Int) + i).toNat < l.length := by omega
    simp only [hi, if_true, hj0, if_false]
    exact ⟨_, by rw [List.get?_eq_getElem?, List.getElem?_eq_getElem hlt]⟩
  · have hlt : i.toNat < l.length := by omega
    simp only [hi, if_false]
    exact ⟨_, by rw [List.get?_eq_getElem?, List.getElem?_eq_getElem hlt]⟩

/-- The first component of `AtomicInt.next` is the pre-advance value. -/
theorem AtomicInt.next_fst (a : AtomicInt) (m : Int) :
    (a.next m).1 = a.value := by
  unfold AtomicInt.next
  by_cases h : a.value + 1 > m <;> simp [h]

/-- `peek` raises no exception when the rotation is empty or the cursor is a
valid Python index (negative indices from `-len` included). -/
theorem peek_no_error (c : ConnectionCycle)
    (h : c.items.length = 0 ∨
      (-(c.items.length : Int) ≤ c.pointer.get ∧
        c.pointer.get < (c.items.length : Int))) :
    ∀ e, c.peek ≠ .error e := by
  intro e
  rcases h with h0 | ⟨hl, hr⟩
  · simp [ConnectionCycle.peek, h0]
  · have hne : ¬ (c.items.length = 0) := by
      intro h0
      rw [h0] at hr hl
      simp at hr hl
      omega
    obtain ⟨x, hx⟩ := pyListGet_isSome c.items c.pointer.get hl hr
    simp [ConnectionCycle.peek, hne, hx]

/-- `cycle` raises no exception when the rotation is empty or the (pre-advance)
cursor is a valid Python index. -/
theorem cycle_no_error (c : ConnectionCycle)
    (h : c.items.length = 0 ∨
      (-(c.items.length : Int) ≤ c.pointer.get ∧
        c.pointer.get < (c.items.length : Int))) :
    ∀ e, (c.cycle).1 ≠ .error e := by
  intro e
  rcases h with h0 | ⟨hl, hr⟩
  · simp [ConnectionCycle.cycle, h0]
  · have hne : ¬ (c.items.length = 0) := by
      intro h0
      rw [h0] at hr hl
      simp at hr hl
      omega
    obtain ⟨x, hx⟩ := pyListGet_isSome c.items c.pointer.get hl hr
    simp only [AtomicInt.get] at hx
    simp [ConnectionCycle.cycle, hne, AtomicInt.next_fst, hx]

/-- C6: `AtomicInt.next(ceiling)` returns the stored value and then stores `0`
when `current + 1 > ceiling`, `current + 1` otherwise; from stored value `0`
with ceiling `2`, three successive calls return `0`, `1`, `2` and leave the
stored value at `1`, `2`, `0` respectively. -/
theorem C6_atomic_next :
    (∀ (a : AtomicInt) (m : Int),
        (a.next m).1 = a.get ∧
        ((a.next m).2).get = if a.get + 1 > m then 0 else a.get + 1) ∧
    (((AtomicInt.mk 0).next 2).1 = 0 ∧ ((AtomicInt.mk 0).next 2).2.get = 1) ∧
    ((((AtomicInt.mk 0).next 2).2.next 2).1 = 1 ∧
      (((AtomicInt.mk 0).next 2).2.next 2).2.get = 2) ∧
    (((((AtomicInt.mk 0).next 2).2.next 2).2.next 2).1 = 2 ∧
      ((((AtomicInt.mk 0).next 2).2.next 2).2.next 2).2.get = 0) := by
  refine ⟨fun a m => ?_, by decide, by decide, by decide⟩
  unfold AtomicInt.next AtomicInt.get
  by_cases h : a.value + 1 > m <;> simp [h]

/-- C9: two `ConnectionDetails` differing only in the password have the same
`get_key` (the concatenation of host, port, database, user and schema) and
the same `repr`; the printed dictionary shows `"******"` for the password. -/
theorem C9_password_excluded :
    ∀ (cd : ConnectionDetails) (q : String),
      ConnectionDetails.get_key { cd with password := q } = cd.get_key ∧
      ConnectionDetails.reprStr { cd with password := q } = cd.reprStr ∧
      cd.get_key =
        cd.host ++ ":" ++ cd.port ++ ":" ++ cd.database ++ ":" ++ cd.user
          ++ ":" ++ cd.schema ∧
      cd.reprDict.lookup "password" = some "******" := by
  intro cd q
  refine ⟨rfl, rfl, rfl, ?_⟩
  simp [ConnectionDetails.reprDict, List.lookup]

/-- C10: deleting a handle whose identity matches nothing in the rotation
returns `False` and leaves the items and the cursor unchanged. -/
theorem C10_delete_absent (c : ConnectionCycle) (w : WaitableConnection)
    (h : ∀ x ∈ c.items, x.wid ≠ w.wid) :
    c.delete w = (false, c) := by
  have hf : c.items.findIdx? (fun x => x.pyEq w) = none := by
    rw [List.findIdx?_eq_none_iff]
    intro x hx
    simpa [WaitableConnection.pyEq] using h x hx
  simp [ConnectionCycle.delete, hf]

/-- C10 witness: deleting an absent handle from a concrete two-element
rotation is a rejected no-op. -/
theorem C10_delete_absent_witness :
    ConnectionCycle.delete ⟨[idleHandle 0, idleHandle 1], ⟨0⟩⟩ (idleHandle 5)
      = (false, ⟨[idleHandle 0, idleHandle 1], ⟨0⟩⟩) :=
  C10_delete_absent ⟨[idleHandle 0, idleHandle 1], ⟨0⟩⟩ (idleHandle 5)
    (by decide)

/-- C8: `rollback_transaction` on a handle that is already IDLE (not busy,
lock free, no open transaction — the transaction slot empty or holding only
a closed transaction) fails explicitly with an exception and leaves the
handle completely unchanged: a defined, total behaviour. -/
theorem C8_rollback_idle (w : WaitableConnection) (e : Option String)
    (h1 : w.inUse = false) (h2 : w.lockHeld = false)
    (h3 : w.transaction = none ∨
      ∃ t, w.transaction = some t ∧ t.active = false) :
    (w.rollback_transaction e).1 = w ∧
      ((w.rollback_transaction e).2).isSome = true := by
  rcases h3 with h3 | ⟨t, h3, hact⟩
  · simp [WaitableConnection.rollback_transaction, h3]
  · obtain ⟨wid, conn, lockHeld, trans, inUse⟩ := w
    obtain ⟨tid, active⟩ := t
    simp only at h1 h2 h3
    subst h1 h2 h3
    simp only at hact
    subst hact
    simp [WaitableConnection.rollback_transaction]

/-- C8 witness: a concrete idle handle with a stale closed transaction —
rollback raises and changes nothing. -/
theorem C8_rollback_idle_witness :
    (WaitableConnection.rollback_transaction
        ⟨7, some ⟨7, false⟩, false, some ⟨3, false⟩, false⟩ none).1
      = ⟨7, some ⟨7, false⟩, false, some ⟨3, false⟩, false⟩ ∧
    ((WaitableConnection.rollback_transaction
        ⟨7, some ⟨7, false⟩, false, some ⟨3, false⟩, false⟩ none).2).isSome
      = true :=
  C8_rollback_idle ⟨7, some ⟨7, false⟩, false, some ⟨3, false⟩, false⟩ none
    rfl rfl (Or.inr ⟨⟨3, false⟩, rfl, rfl⟩)

/-- Closed form of `_delete_by_index` at an in-range index. -/
theorem deleteByIndex_eq (c : ConnectionCycle) (i : Nat)
    (h : i < c.items.length) :
    c.deleteByIndex i =
      (c.items.get? i,
       { items := c.items.eraseIdx i
         pointer :=
           ⟨if c.pointer.get ≥ (i : Int) then
              (if c.pointer.get ≥ (c.items.length : Int) - 1 then 0
               else c.pointer.get - 1)
            else c.pointer.get⟩ }) := by
  unfold ConnectionCycle.deleteByIndex
  rw [if_neg (by omega)]
  by_cases h1 : c.pointer.get ≥ (i : Int)
  · by_cases h2 : c.pointer.get ≥ (c.items.length : Int) - 1
    · simp only [if_pos h1, if_pos h2]
      rfl
    · simp only [if_pos h1, if_neg h2]
      rfl
  · simp only [if_neg h1]
    rfl

/-- C1 (amended): from a rotation of size `n ≥ 1` with a valid cursor `p` and
deletion index `i < n`, `_delete_by_index(i)` removes exactly the element at
`i` and adjusts the cursor as the spec words it (at-or-past `i`: reset to 0
at the last valid index, else decrement). Afterwards the cursor is a valid
index into the remaining list — or 0 when the list became empty — EXCEPT
when the cursor and the deletion index are both 0 and `n ≥ 2`, where the
decrement drives the cursor to `-1`; even then a subsequent `peek()` or
`cycle()` never raises `IndexError`, because Python resolves index `-1` to
the last element. Deleting the sole remaining element leaves the rotation
empty with cursor 0. -/
theorem C1_delete_by_index_cursor (c : ConnectionCycle) (n i p : Nat)
    (hn : c.items.length = n) (hn1 : 1 ≤ n)
    (hp : c.pointer.get = (p : Int)) (hpn : p < n) (hi : i < n) :
    ((c.deleteByIndex i).1 = c.items.get? i ∧
      (c.deleteByIndex i).2.items = c.items.eraseIdx i ∧
      (c.deleteByIndex i).2.items.length = n - 1) ∧
    ((c.deleteByIndex i).2.pointer.get =
      if i ≤ p then (if p = n - 1 then 0 else (p : Int) - 1) else (p : Int)) ∧
    ((0 ≤ (c.deleteByIndex i).2.pointer.get ∧
       (c.deleteByIndex i).2.pointer.get < (n : Int) - 1) ∨
      (n = 1 ∧ (c.deleteByIndex i).2.pointer.get = 0) ∨
      (p = 0 ∧ i = 0 ∧ 2 ≤ n ∧ (c.deleteByIndex i).2.pointer.get = -1)) ∧
    (∀ e, (c.deleteByIndex i).2.peek ≠ .error e) ∧
    (∀ e, ((c.deleteByIndex i).2.cycle).1 ≠ .error e) ∧
    (n = 1 → (c.deleteByIndex i).2.items = [] ∧
      (c.deleteByIndex i).2.pointer.get = 0) := by
  have hilen : i < c.items.length := by omega
  have hpv : c.pointer.value = (p : Int) := hp
  rw [deleteByIndex_eq c i hilen]
  dsimp only [AtomicInt.get]
  rw [hpv, hn]
  have hlen2 : (c.items.eraseIdx i).length = n - 1 := by
    rw [List.length_eraseIdx_of_lt hilen, hn]
  have hbound :
      (c.items.eraseIdx i).length = 0 ∨
        (-(((c.items.eraseIdx i).length : Int)) ≤
            (if (p : Int) ≥ (i : Int) then
                (if (p : Int) ≥ (n : Int) - 1 then 0 else (p : Int) - 1)
              else (p : Int)) ∧
          (if (p : Int) ≥ (i : Int) then
              (if (p : Int) ≥ (n : Int) - 1 then 0 else (p : Int) - 1)
            else (p : Int)) < ((c.items.eraseIdx i).length : Int)) := by
    rw [hlen2]
    have hcast : (((n - 1 : Nat)) : Int) = (n : Int) - 1 := by omega
    rw [hcast]
    split_ifs <;> omega
  refine ⟨⟨rfl, rfl, hlen2⟩, ?_, ?_, ?_, ?_, ?_⟩
  · split_ifs <;> omega
  · split_ifs <;> omega
  · exact peek_no_error _ hbound
  · exact cycle_no_error _ hbound
  · intro h1
    refine ⟨List.length_eq_zero.mp (by omega), ?_⟩
    split_ifs <;> omega

/-- C1 counterexample: a rotation of size 2 with cursor 0 (a valid index);
deleting index 0 leaves one element but cursor `-1`, which is neither a
valid index into the remaining list nor 0-on-empty — the claim's stated
post-invariant fails at this input. -/
theorem C1_counterexample :
    ((ConnectionCycle.deleteByIndex ⟨[idleHandle 0, idleHandle 1], ⟨0⟩⟩
        0).2.items.length = 1) ∧
    ((ConnectionCycle.deleteByIndex ⟨[idleHandle 0, idleHandle 1], ⟨0⟩⟩
        0).2.pointer.get = -1) ∧
    ¬ ((0 ≤ (ConnectionCycle.deleteByIndex
            ⟨[idleHandle 0, idleHandle 1], ⟨0⟩⟩ 0).2.pointer.get ∧
        (ConnectionCycle.deleteByIndex ⟨[idleHandle 0, idleHandle 1], ⟨0⟩⟩
            0).2.pointer.get <
          ((ConnectionCycle.deleteByIndex ⟨[idleHandle 0, idleHandle 1], ⟨0⟩⟩
              0).2.items.length : Int)) ∨
       ((ConnectionCycle.deleteByIndex ⟨[idleHandle 0, idleHandle 1], ⟨0⟩⟩
            0).2.items.length = 0 ∧
        (ConnectionCycle.deleteByIndex ⟨[idleHandle 0, idleHandle 1], ⟨0⟩⟩
            0).2.pointer.get = 0)) := by
  decide

/-- C1 witness: deleting index 1 of a size-3 rotation whose cursor sits at
the last valid index 2 resets the cursor to 0. -/
theorem C1_witness :
    ((ConnectionCycle.deleteByIndex
        ⟨[idleHandle 0, idleHandle 1, idleHandle 2], ⟨2⟩⟩ 1).2.pointer.get
      = 0) := by
  have h := C1_delete_by_index_cursor
    ⟨[idleHandle 0, idleHandle 1, idleHandle 2], ⟨2⟩⟩ 3 1 2
    rfl (by decide) rfl (by decide) (by decide)
  simpa using h.2.1

/-- A non-negative Python index reads like `get?`. -/
theorem pyListGet_natCast {α : Type} (l : List α) (p : Nat) :
    pyListGet l (p : Int) = l.get? p := by
  unfold pyListGet
  rw [if_neg (by omega)]
  norm_num

/-- Closed form of one `cycle()` call on a rotation with a valid cursor:
it returns the element at the cursor and advances the cursor to
`(p + 1) % len`. -/
theorem cycle_closed_form (l : List WaitableConnection) (p : Nat)
    (hp : p < l.length) :
    ConnectionCycle.cycle ⟨l, ⟨(p : Int)⟩⟩ =
      (.ok (l.get? p), ⟨l, ⟨(((p + 1) % l.length : Nat) : Int)⟩⟩) := by
  have hK : ¬ (l.length = 0) := by omega
  obtain ⟨x, hx⟩ : ∃ x, l.get? p = some x :=
    ⟨_, by rw [List.get?_eq_getElem?, List.getElem?_eq_getElem hp]⟩
  have hnext :
      AtomicInt.next ⟨(p : Int)⟩ ((l.length : Int) - 1) =
        ((p : Int), ⟨(((p + 1) % l.length : Nat) : Int)⟩) := by
    unfold AtomicInt.next
    by_cases hb : (p : Int) + 1 > (l.length : Int) - 1
    · rw [if_pos hb]
      have hmod : (p + 1) % l.length = 0 := by
        have h1 : p + 1 = l.length := by omega
        rw [h1, Nat.mod_self]
      rw [hmod]
      norm_num
    · rw [if_neg hb]
      have hmod : (p + 1) % l.length = p + 1 := Nat.mod_eq_of_lt (by omega)
      rw [hmod]
      norm_num
  unfold ConnectionCycle.cycle
  rw [if_neg hK]
  dsimp only
  rw [hnext]
  dsimp only
  rw [pyListGet_natCast, hx]

/-- Closed form of `n` consecutive `cycle()` calls: items unchanged, cursor
at `(p + n) % len`. -/
theorem iterCycle_closed_form (l : List WaitableConnection) (p : Nat)
    (hp : p < l.length) (n : Nat) :
    ConnectionCycle.iterCycle ⟨l, ⟨(p : Int)⟩⟩ n =
      ⟨l, ⟨(((p + n) % l.length : Nat) : Int)⟩⟩ := by
  induction n with
  | zero =>
    have : p % l.length = p := Nat.mod_eq_of_lt hp
    simp [ConnectionCycle.iterCycle, this]
  | succ k ih =>
    have hlt : (p + k) % l.length < l.length := Nat.mod_lt _ (by omega)
    show (ConnectionCycle.iterCycle ⟨l, ⟨(p : Int)⟩⟩ k).cycle.2 = _
    rw [ih, cycle_closed_form l ((p + k) % l.length) hlt]
    have : ((p + k) % l.length + 1) % l.length = (p + (k + 1)) % l.length := by
      rw [Nat.mod_add_mod, Nat.add_assoc]
    dsimp only
    rw [this]

/-- C4: for a rotation holding exactly `K` handles with valid cursor `p` and
no structural mutation between calls, the `(j+1)`-th of a run of `cycle()`
calls returns the handle at list position `(p + j) % K` — i.e. the handles
come back in (cyclic) insertion order, each exactly once over `K` calls,
and the `(K+1)`-th call repeats the first; each call returns the handle at
the pre-advance cursor; `cycle()` on an empty rotation returns none. -/
theorem C4_round_robin (c : ConnectionCycle) (K p : Nat)
    (hK : c.items.length = K) (hp : c.pointer = ⟨(p : Int)⟩) (hpK : p < K) :
    (∀ j : Nat, c.cycleResult j = .ok (c.items.get? ((p + j) % K)) ∧
       c.cycleResult j =
         .ok (pyListGet (c.iterCycle j).items ((c.iterCycle j).pointer.get))) ∧
    (∀ j1 j2 : Nat, j1 < K → j2 < K → j1 ≠ j2 →
       (p + j1) % K ≠ (p + j2) % K) ∧
    c.cycleResult K = c.cycleResult 0 ∧
    (∀ c2 : ConnectionCycle, c2.items.length = 0 →
       c2.cycle = (.ok none, c2)) := by
  obtain ⟨l, ptr⟩ := c
  dsimp only at hK hp
  subst hK
  subst hp
  have hstep : ∀ j : Nat,
      ConnectionCycle.cycleResult ⟨l, ⟨(p : Int)⟩⟩ j =
        .ok (l.get? ((p + j) % l.length)) := by
    intro j
    unfold ConnectionCycle.cycleResult
    rw [iterCycle_closed_form l p hpK j,
      cycle_closed_form l ((p + j) % l.length) (Nat.mod_lt _ (by omega))]
  refine ⟨?_, ?_, ?_, ?_⟩
  · intro j
    refine ⟨hstep j, ?_⟩
    rw [hstep j, iterCycle_closed_form l p hpK j]
    dsimp only [AtomicInt.get]
    rw [pyListGet_natCast]
  · intro j1 j2 h1 h2 hne heq
    have hmodeq : (p + j1) % l.length = (p + j2) % l.length := heq
    have hdvd : (l.length : Int) ∣ ((p + j2 : Nat) : Int) - ((p + j1 : Nat) : Int) :=
      Nat.ModEq.dvd hmodeq
    rcases lt_or_gt_of_ne hne with hlt | hlt
    · have hle := Int.le_of_dvd (by push_cast; omega) hdvd
      push_cast at hle
      omega
    · have hdvd2 : (l.length : Int) ∣ ((p + j1 : Nat) : Int) - ((p + j2 : Nat) : Int) :=
        Nat.ModEq.dvd hmodeq.symm
      have hle := Int.le_of_dvd (by push_cast; omega) hdvd2
      push_cast at hle
      omega
  · rw [hstep (l.length), hstep 0]
    have : (p + l.length) % l.length = (p + 0) % l.length := by
      simp [Nat.add_mod_right]
    rw [this]
  · intro c2 h0
    unfold ConnectionCycle.cycle
    rw [if_pos h0]

/-- C4 witness: a size-3 rotation with cursor 0 — the 4th `cycle()` call
returns the same handle as the 1st. -/
theorem C4_witness :
    ConnectionCycle.cycleResult
        ⟨[idleHandle 0, idleHandle 1, idleHandle 2], ⟨0⟩⟩ 3 =
      ConnectionCycle.cycleResult
        ⟨[idleHandle 0, idleHandle 1, idleHandle 2], ⟨0⟩⟩ 0 :=
  (C4_round_robin ⟨[idleHandle 0, idleHandle 1, idleHandle 2], ⟨0⟩⟩ 3 0
    rfl rfl (by decide)).2.2.1

/-- `cycle()` never changes the items list. -/
theorem cycle_items (c : ConnectionCycle) : (c.cycle).2.items = c.items := by
  unfold ConnectionCycle.cycle
  by_cases h : c.items.length = 0
  · simp [h]
  · cases hx : pyListGet c.items
        ((c.pointer.next ((c.items.length : Int) - 1)).1) <;>
      simp [h, hx]

/-- A successful `pyListGet` returns a member of the list. -/
theorem pyListGet_mem {α : Type} (l : List α) (i : Int) (x : α)
    (h : pyListGet l i = some x) : x ∈ l := by
  unfold pyListGet at h
  split_ifs at h
  · exact List.get?_mem h
  · exact List.get?_mem h

/-- A handle returned by `cycle()` is an element of the rotation. -/
theorem cycle_mem (c : ConnectionCycle) (w : WaitableConnection)
    (h : (c.cycle).1 = .ok (some w)) : w ∈ c.items := by
  unfold ConnectionCycle.cycle at h
  by_cases h0 : c.items.length = 0
  · simp [h0] at h
  · cases hx : pyListGet c.items
        ((c.pointer.next ((c.items.length : Int) - 1)).1) with
    | none => simp [h0, hx] at h
    | some y =>
      simp [h0, hx] at h
      subst h
      exact pyListGet_mem _ _ _ hx

/-- `delete` never grows the rotation. -/
theorem delete_size_le (c : ConnectionCycle) (w : WaitableConnection) :
    (c.delete w).2.items.length ≤ c.items.length := by
  unfold ConnectionCycle.delete
  cases hf : c.items.findIdx? (fun x => x.pyEq w) with
  | none => simp
  | some i =>
    have hi : i < c.items.length :=
      (List.findIdx?_eq_some_iff_findIdx_eq.mp hf).1
    dsimp only
    unfold ConnectionCycle.deleteByIndex
    rw [if_neg (show ¬ (i ≥ c.items.length) from by omega)]
    show (c.items.eraseIdx i).length ≤ c.items.length
    rw [List.length_eraseIdx_of_lt hi]
    omega

/-- `_create_connection` keeps `_max_pool_size`. -/
theorem createConnectionImpl_max (p : ConnectionPool) :
    (p.createConnectionImpl).2.maxPoolSize = p.maxPoolSize := by
  unfold ConnectionPool.createConnectionImpl ConnectionPool.rawConnect
  by_cases h : p.connectionCycle.size ≥ p.maxPoolSize
  · simp [h]
  · by_cases hf : p.factoryOk <;> simp [h, hf]

/-- `get_connection` keeps `_max_pool_size`. -/
theorem get_connection_max (p : ConnectionPool) :
    (p.get_connection).2.maxPoolSize = p.maxPoolSize := by
  unfold ConnectionPool.get_connection ConnectionPool.create_connection
  by_cases h0 : p.connectionCycle.size = 0
  · simp [h0, createConnectionImpl_max]
  · by_cases h1 : p.connectionCycle.size < p.maxPoolSize
    · cases hp : p.connectionCycle.peek with
      | error e => simp [h0, h1, hp]
      | ok o =>
        cases o with
        | none => simp [h0, h1, hp]
        | some w =>
          by_cases hw : w.inUse && !p.lockHeld <;>
            simp [h0, h1, hp, hw, createConnectionImpl_max]
    · simp [h0, h1]

/-- `_create_connection` respects the bound: starting at or below
`_max_pool_size`, it ends at or below `_max_pool_size`. -/
theorem createConnectionImpl_size (p : ConnectionPool)
    (h : p.size ≤ p.maxPoolSize) :
    (p.createConnectionImpl).2.size ≤ p.maxPoolSize := by
  unfold ConnectionPool.createConnectionImpl ConnectionPool.rawConnect
  by_cases hcap : p.connectionCycle.size ≥ p.maxPoolSize
  · simp only [hcap, if_true]
    show ((p.connectionCycle.cycle).2).items.length ≤ p.maxPoolSize
    rw [cycle_items]
    exact h
  · by_cases hf : p.factoryOk
    · simp only [hcap, if_false, hf, if_true]
      show ((p.connectionCycle.add _).items.length) ≤ p.maxPoolSize
      unfold ConnectionCycle.add
      simp only [List.length_append, List.length_cons, List.length_nil]
      unfold ConnectionPool.size ConnectionCycle.size at h hcap
      omega
    · simp only [hcap, if_false, hf]
      exact h

/-- `get_connection` respects the bound. -/
theorem get_connection_size (p : ConnectionPool)
    (h : p.size ≤ p.maxPoolSize) :
    (p.get_connection).2.size ≤ p.maxPoolSize := by
  unfold ConnectionPool.get_connection ConnectionPool.create_connection
  by_cases h0 : p.connectionCycle.size = 0
  · simpa [h0] using createConnectionImpl_size p h
  · by_cases h1 : p.connectionCycle.size < p.maxPoolSize
    · cases hp : p.connectionCycle.peek with
      | error e => simpa [h0, h1, hp] using h
      | ok o =>
        cases o with
        | none => simpa [h0, h1, hp] using h
        | some w =>
          by_cases hw : w.inUse && !p.lockHeld
          · simpa [h0, h1, hp, hw] using createConnectionImpl_size p h
          · simp only [h0, h1, hp, hw, if_true, if_false]
            show ((p.connectionCycle.cycle).2).items.length ≤ p.maxPoolSize
            rw [cycle_items]
            exact h
    · simp only [h0, h1, if_false]
      show ((p.connectionCycle.cycle).2).items.length ≤ p.maxPoolSize
      rw [cycle_items]
      exact h

/-- One pool operation keeps both the bound and the configured maximum. -/
theorem applyOp_bound (p : ConnectionPool) (op : PoolOp)
    (h : p.size ≤ p.maxPoolSize) :
    (p.applyOp op).size ≤ p.maxPoolSize ∧
      (p.applyOp op).maxPoolSize = p.maxPoolSize := by
  cases op with
  | getConn => exact ⟨get_connection_size p h, get_connection_max p⟩
  | createConn lock =>
    exact ⟨createConnectionImpl_size p h, createConnectionImpl_max p⟩
  | removeConn w =>
    refine ⟨?_, rfl⟩
    show ((p.connectionCycle.delete w).2).items.length ≤ p.maxPoolSize
    exact le_trans (delete_size_le p.connectionCycle w) h

/-- C2: starting from a pool within its bound (e.g. a freshly initialised
pool), no sequence of `get_connection`, non-raw `create_connection`, and
`remove_connection` operations ever makes the rotation's size exceed
`max_pool_size`; and a growth request at capacity returns the result of
`cycle()` — an existing member of the rotation — without adding a handle. -/
theorem C2_pool_bounded :
    (∀ (p : ConnectionPool) (ops : List PoolOp),
       p.size ≤ p.maxPoolSize →
       (p.applyOps ops).size ≤ p.maxPoolSize) ∧
    (∀ p : ConnectionPool, p.maxPoolSize ≤ p.size →
       (p.createConnectionImpl).1 = (p.connectionCycle.cycle).1 ∧
       (p.createConnectionImpl).2.size = p.size ∧
       (∀ w, (p.createConnectionImpl).1 = .ok (some w) →
          w ∈ p.connectionCycle.items)) := by
  constructor
  · intro p ops
    induction ops generalizing p with
    | nil => exact fun h => h
    | cons op rest ih =>
      intro h
      have hstep := applyOp_bound p op h
      have h2 : (p.applyOp op).size ≤ (p.applyOp op).maxPoolSize := by
        rw [hstep.2]
        exact hstep.1
      have h3 := ih (p.applyOp op) h2
      rw [hstep.2] at h3
      exact h3
  · intro p hcap
    have hcap2 : p.connectionCycle.size ≥ p.maxPoolSize := hcap
    refine ⟨?_, ?_, ?_⟩
    · unfold ConnectionPool.createConnectionImpl
      rw [if_pos hcap2]
    · unfold ConnectionPool.createConnectionImpl
      rw [if_pos hcap2]
      show ((p.connectionCycle.cycle).2).items.length = p.size
      rw [cycle_items]
      rfl
    · intro w hw
      unfold ConnectionPool.createConnectionImpl at hw
      rw [if_pos hcap2] at hw
      exact cycle_mem _ _ hw

/-- C2 witness: a pool at capacity (max 1, one handle) serves three
`get_connection` calls and never exceeds size 1; and its grow routine at
capacity returns the cycled existing handle. -/
theorem C2_pool_bounded_witness :
    (ConnectionPool.applyOps
        ⟨⟨[idleHandle 0], ⟨0⟩⟩, [idleHandle 0], false, 1, 1, true⟩
        [.getConn, .getConn, .getConn]).size ≤ 1 ∧
    (ConnectionPool.createConnectionImpl
        ⟨⟨[idleHandle 0], ⟨0⟩⟩, [idleHandle 0], false, 1, 1, true⟩).1 =
      (ConnectionCycle.cycle ⟨[idleHandle 0], ⟨0⟩⟩).1 :=
  ⟨C2_pool_bounded.1 ⟨⟨[idleHandle 0], ⟨0⟩⟩, [idleHandle 0], false, 1, 1, true⟩
      [.getConn, .getConn, .getConn] (by decide),
   (C2_pool_bounded.2 ⟨⟨[idleHandle 0], ⟨0⟩⟩, [idleHandle 0], false, 1, 1, true⟩
      (by decide)).1⟩

/-- Deleting a handle whose identity occurs in the rotation succeeds and
shrinks the rotation by exactly one. -/
theorem delete_found_size (c : ConnectionCycle) (w : WaitableConnection)
    (hmem : ∃ x ∈ c.items, x.wid = w.wid) :
    (c.delete w).1 = true ∧
      (c.delete w).2.items.length + 1 = c.items.length := by
  obtain ⟨x, hx, hid⟩ := hmem
  have hne : c.items.findIdx? (fun y => y.pyEq w) ≠ none := by
    intro hfn
    rw [List.findIdx?_eq_none_iff] at hfn
    have := hfn x hx
    simp [WaitableConnection.pyEq, hid] at this
  cases hf : c.items.findIdx? (fun y => y.pyEq w) with
  | none => exact absurd hf hne
  | some i =>
    have hi : i < c.items.length :=
      (List.findIdx?_eq_some_iff_findIdx_eq.mp hf).1
    unfold ConnectionCycle.delete
    rw [hf]
    dsimp only
    unfold ConnectionCycle.deleteByIndex
    rw [if_neg (show ¬ (i ≥ c.items.length) from by omega)]
    refine ⟨rfl, ?_⟩
    show (c.items.eraseIdx i).length + 1 = c.items.length
    rw [List.length_eraseIdx_of_lt hi]
    omega

/-- C5: on a handle whose physical connection is unhealthy,
`start_transaction` attempts self-heal exactly once, with the handle lock
held during the attempt. When the factory cannot produce a replacement, the
call raises, leaves the handle not busy with its lock released, and the
owning rotation shrinks by exactly one. When the factory succeeds, the call
returns the fresh open replacement connection, installs it on the handle,
opens a new transaction on it, and the rotation size is unchanged. -/
theorem C5_self_heal_once (w : WaitableConnection) (p : ConnectionPool)
    (tid : Nat) (hun : w.is_healthy = false)
    (hmem : ∃ x ∈ p.connectionCycle.items, x.wid = w.wid) :
    ((w.start_transaction p tid).2.2.2 = [.healAttempt true]) ∧
    (p.factoryOk = false →
       (w.start_transaction p tid).1 =
         .error (.exception
           "Failed to start transaction - connection could not self-heal") ∧
       (w.start_transaction p tid).2.1.inUse = false ∧
       (w.start_transaction p tid).2.1.lockHeld = false ∧
       (w.start_transaction p tid).2.2.1.size + 1 = p.size) ∧
    (p.factoryOk = true →
       ∃ c : PhysConn,
         (w.start_transaction p tid).1 = .ok c ∧
         c.closed = false ∧ c.connId = p.nextId ∧
         (w.start_transaction p tid).2.1.connection = some c ∧
         (w.start_transaction p tid).2.1.transaction =
           some { tid := tid, active := true } ∧
         (w.start_transaction p tid).2.2.1.size = p.size) := by
  have hh : ({ w with lockHeld := true, inUse := true } :
      WaitableConnection).is_healthy = false := hun
  by_cases hf : p.factoryOk
  · refine ⟨?_, fun hf0 => absurd hf (by rw [hf0]; simp), fun _ => ?_⟩
    · simp [WaitableConnection.start_transaction, hh,
        WaitableConnection.self_heal, ConnectionPool.rawConnect, hf]
    · refine ⟨{ connId := p.nextId, closed := false }, ?_, rfl, rfl, ?_, ?_, ?_⟩ <;>
        simp [WaitableConnection.start_transaction, hh,
          WaitableConnection.self_heal, ConnectionPool.rawConnect, hf,
          ConnectionPool.size]
  · have hsize := delete_found_size p.connectionCycle
      { w with lockHeld := true, inUse := true } hmem
    refine ⟨?_, fun _ => ⟨?_, ?_, ?_, ?_⟩, fun hf1 => absurd hf (by rw [hf1]; simp)⟩
    · simp [WaitableConnection.start_transaction, hh,
        WaitableConnection.self_heal, ConnectionPool.rawConnect, hf]
    · simp [WaitableConnection.start_transaction, hh,
        WaitableConnection.self_heal, ConnectionPool.rawConnect, hf]
    · simp [WaitableConnection.start_transaction, hh,
        WaitableConnection.self_heal, ConnectionPool.rawConnect, hf]
    · simp [WaitableConnection.start_transaction, hh,
        WaitableConnection.self_heal, ConnectionPool.rawConnect, hf]
    · simp only [WaitableConnection.start_transaction, hh,
        WaitableConnection.self_heal, ConnectionPool.rawConnect, hf,
        Bool.false_eq_true, if_false, ite_false]
      simpa [WaitableConnection.start_transaction, hh,
        WaitableConnection.self_heal, ConnectionPool.rawConnect, hf,
        ConnectionPool.remove_connection, ConnectionPool.size,
        ConnectionCycle.size] using hsize.2

/-- C5 witness: an unhealthy sole handle in a pool whose factory is down —
the heal is attempted once under the lock and the rotation shrinks to 0. -/
theorem C5_self_heal_once_witness :
    ((WaitableConnection.start_transaction ⟨0, none, false, none, false⟩
        ⟨⟨[⟨0, none, false, none, false⟩], ⟨0⟩⟩,
          [⟨0, none, false, none, false⟩], false, 2, 1, false⟩ 0).2.2.2
      = [.healAttempt true]) ∧
    ((WaitableConnection.start_transaction ⟨0, none, false, none, false⟩
        ⟨⟨[⟨0, none, false, none, false⟩], ⟨0⟩⟩,
          [⟨0, none, false, none, false⟩], false, 2, 1, false⟩ 0).2.2.1.size + 1
      = 1) := by
  have h := C5_self_heal_once ⟨0, none, false, none, false⟩
    ⟨⟨[⟨0, none, false, none, false⟩], ⟨0⟩⟩,
      [⟨0, none, false, none, false⟩], false, 2, 1, false⟩ 0
    (by decide) (by decide)
  exact ⟨h.1, (h.2.1 rfl).2.2.2⟩

/-- C7 (amended): on every exit path of either scoped-acquisition wrapper
exactly one of `commit_transaction` / `rollback_transaction` runs — commit
on normal exit, rollback on exceptional exit — and on a handle with an open
transaction and a held lock it closes the transaction, marks idle and
releases the lock. `WaitableConnection.__exit__` passes the triggering
exception to `rollback_transaction`; `TransactionManager.__exit__` calls
`rollback_transaction()` with no argument, so the exception context it
records is `None`. Entering (on a healthy handle) begins a transaction. -/
theorem C7_scoped_exit (w : WaitableConnection) (e : String)
    (t : DbTransaction) (hl : w.lockHeld = true)
    (ht : w.transaction = some t) :
    ((WaitableConnection.exitCtx w none).2.1 = [.committed] ∧
     (WaitableConnection.exitCtx w (some e)).2.1 = [.rolledBack (some e)] ∧
     (TransactionManager.exitCtx w none).2.1 = [.committed] ∧
     (TransactionManager.exitCtx w (some e)).2.1 = [.rolledBack none]) ∧
    ((WaitableConnection.exitCtx w none).1.inUse = false ∧
     (WaitableConnection.exitCtx w none).1.lockHeld = false ∧
     (WaitableConnection.exitCtx w none).1.transaction =
       some { tid := t.tid, active := false } ∧
     (WaitableConnection.exitCtx w (some e)).1.inUse = false ∧
     (WaitableConnection.exitCtx w (some e)).1.lockHeld = false ∧
     (WaitableConnection.exitCtx w (some e)).1.transaction =
       some { tid := t.tid, active := false }) ∧
    (∀ (p : ConnectionPool) (tid : Nat) (w0 : WaitableConnection),
       w0.is_healthy = true →
       (∃ c, (w0.start_transaction p tid).1 = .ok c) ∧
       (w0.start_transaction p tid).2.1.transaction =
         some { tid := tid, active := true }) := by
  refine ⟨?_, ?_, ?_⟩
  · refine ⟨?_, ?_, ?_, ?_⟩ <;>
      simp [WaitableConnection.exitCtx, TransactionManager.exitCtx,
        WaitableConnection.commit_transaction,
        WaitableConnection.rollback_transaction, ht, hl]
  · refine ⟨?_, ?_, ?_, ?_, ?_, ?_⟩ <;>
      simp [WaitableConnection.exitCtx, TransactionManager.exitCtx,
        WaitableConnection.commit_transaction,
        WaitableConnection.rollback_transaction, ht, hl]
  · intro p tid w0 hh
    have hh2 : ({ w0 with lockHeld := true, inUse := true } :
        WaitableConnection).is_healthy = true := hh
    cases hc : w0.connection with
    | none =>
      rw [WaitableConnection.is_healthy, hc] at hh
      simp at hh
    | some c =>
      have hcc : c.closed = false := by
        unfold WaitableConnection.is_healthy at hh
        rw [hc] at hh
        simpa using hh
      constructor
      · exact ⟨c, by
          simp [WaitableConnection.start_transaction,
            WaitableConnection.is_healthy, hc, hcc]⟩
      · simp [WaitableConnection.start_transaction,
          WaitableConnection.is_healthy, hc, hcc]

/-- C7 counterexample: an exceptional exit through `TransactionManager`
invokes `rollback_transaction` with no exception argument — the recorded
context is `None`, not the triggering exception. -/
theorem C7_counterexample :
    (TransactionManager.exitCtx
        ⟨0, some ⟨0, false⟩, true, some ⟨1, true⟩, true⟩ (some "boom")).2.1
      = [.rolledBack none] ∧
    [ExitAction.rolledBack none] ≠
      [ExitAction.rolledBack (some "boom")] := by
  decide

/-- C7 witness: a concrete busy handle with an open transaction — normal
exit commits, exceptional exit rolls back with the exception (on the
`WaitableConnection` wrapper). -/
theorem C7_witness :
    (WaitableConnection.exitCtx
        ⟨0, some ⟨0, false⟩, true, some ⟨1, true⟩, true⟩ none).2.1
      = [.committed] ∧
    (WaitableConnection.exitCtx
        ⟨0, some ⟨0, false⟩, true, some ⟨1, true⟩, true⟩ (some "kaboom")).2.1
      = [.rolledBack (some "kaboom")] := by
  have h := C7_scoped_exit ⟨0, some ⟨0, false⟩, true, some ⟨1, true⟩, true⟩
    "kaboom" ⟨1, true⟩ rfl rfl
  exact ⟨h.1.1, h.1.2.1⟩

/-- `peek` on a non-empty rotation with a valid cursor returns a handle. -/
theorem peek_valid (c : ConnectionCycle) (hne : ¬ (c.items.length = 0))
    (h0 : 0 ≤ c.pointer.get) (h1 : c.pointer.get < (c.items.length : Int)) :
    ∃ u, c.peek = .ok (some u) := by
  obtain ⟨x, hx⟩ := pyListGet_isSome c.items c.pointer.get (by omega) h1
  refine ⟨x, ?_⟩
  unfold ConnectionCycle.peek
  rw [if_neg hne, hx]

/-- Closed form of `_create_connection` below capacity with a working
factory: it appends exactly one fresh idle handle and returns it. -/
theorem createConnectionImpl_grow (p : ConnectionPool)
    (hcap : p.connectionCycle.size < p.maxPoolSize)
    (hf : p.factoryOk = true) :
    p.createConnectionImpl =
      (.ok (some (idleHandle p.nextId)),
       { p with nextId := p.nextId + 1
                connections := p.connections ++ [idleHandle p.nextId]
                connectionCycle :=
                  p.connectionCycle.add (idleHandle p.nextId) }) := by
  unfold ConnectionPool.createConnectionImpl ConnectionPool.rawConnect
  rw [if_neg (show ¬ (p.connectionCycle.size ≥ p.maxPoolSize) from by omega)]
  simp [hf, idleHandle]

/-- C3 (amended): provided `max_pool_size ≥ 1`, a working factory, a valid
cursor, and pool-issued handle identities, `get_connection()` creates and
returns a brand-new handle (appended to the rotation) exactly when the
rotation is empty or (size < max and the handle at the cursor is busy and
the structural lock is free); in every other case it returns the result of
`cycle()` and the rotation is unchanged. The `max=2, initial=1` scenario:
the first call returns A; while A is busy a second call grows to size 2 and
returns the new handle B; after releasing A, three further sequential calls
return A, then B, then A again. -/
theorem C3_admission (p : ConnectionPool)
    (hmax : 1 ≤ p.maxPoolSize) (hfac : p.factoryOk = true)
    (hptr : ¬ (p.connectionCycle.items.length = 0) →
       0 ≤ p.connectionCycle.pointer.get ∧
       p.connectionCycle.pointer.get < (p.connectionCycle.items.length : Int))
    (hids : ∀ x ∈ p.connectionCycle.items, x.wid < p.nextId) :
    ((∃ w, (p.get_connection).1 = .ok (some w) ∧
        (∀ x ∈ p.connectionCycle.items, x.wid ≠ w.wid) ∧
        (p.get_connection).2.connectionCycle.items =
          p.connectionCycle.items ++ [w])
      ↔ specGrowCond p = true) ∧
    (specGrowCond p = false →
       (p.get_connection).1 = (p.connectionCycle.cycle).1 ∧
       (p.get_connection).2.connectionCycle.items =
         p.connectionCycle.items) ∧
    (let p1 : ConnectionPool :=
       ⟨⟨[idleHandle 0], ⟨0⟩⟩, [idleHandle 0], false, 2, 1, true⟩
     let r1 := p1.get_connection
     let p2 := (r1.2).setInUse 0 true
     let r2 := p2.get_connection
     let p3 := (r2.2).setInUse 0 false
     let r3 := p3.get_connection
     let r4 := (r3.2).get_connection
     let r5 := (r4.2).get_connection
     r1.1 = .ok (some (idleHandle 0)) ∧
     r2.1 = .ok (some (idleHandle 1)) ∧ (r2.2).size = 2 ∧
     r3.1 = .ok (some (idleHandle 0)) ∧
     r4.1 = .ok (some (idleHandle 1)) ∧
     r5.1 = .ok (some (idleHandle 0))) := by
  have key :
      (specGrowCond p = true ∧
        p.get_connection =
          (.ok (some (idleHandle p.nextId)),
           { p with nextId := p.nextId + 1
                    connections := p.connections ++ [idleHandle p.nextId]
                    connectionCycle :=
                      p.connectionCycle.add (idleHandle p.nextId) })) ∨
      (specGrowCond p = false ∧
        p.get_connection =
          ((p.connectionCycle.cycle).1,
           { p with connectionCycle := (p.connectionCycle.cycle).2 })) := by
    by_cases h0 : p.connectionCycle.size = 0
    · left
      constructor
      · simp [specGrowCond, ConnectionPool.size, h0]
      · have hgc : p.get_connection = p.createConnectionImpl := by
          unfold ConnectionPool.get_connection ConnectionPool.create_connection
          rw [if_pos h0]
        rw [hgc]
        exact createConnectionImpl_grow p (by omega) hfac
    · by_cases h1 : p.connectionCycle.size < p.maxPoolSize
      · have hne0 : ¬ (p.connectionCycle.items.length = 0) := h0
        obtain ⟨hp0, hp1⟩ := hptr hne0
        obtain ⟨u, hu⟩ := peek_valid p.connectionCycle hne0 hp0 hp1
        by_cases hb : (u.inUse && !p.lockHeld) = true
        · left
          constructor
          · simp [specGrowCond, ConnectionPool.size, h0, h1, hu, hb]
          · have hgc : p.get_connection = p.createConnectionImpl := by
              unfold ConnectionPool.get_connection
                ConnectionPool.create_connection
              rw [if_neg h0, if_pos h1, hu]
              dsimp only
              rw [if_pos hb]
            rw [hgc]
            exact createConnectionImpl_grow p h1 hfac
        · right
          constructor
          · simp only [Bool.not_eq_true] at hb
            simp [specGrowCond, ConnectionPool.size, h0, h1, hu, hb]
          · unfold ConnectionPool.get_connection
            rw [if_neg h0, if_pos h1, hu]
            dsimp only
            rw [if_neg hb]
      · right
        constructor
        · simp [specGrowCond, ConnectionPool.size, h0, h1]
        · unfold ConnectionPool.get_connection
          rw [if_neg h0, if_neg h1]
  refine ⟨?_, ?_, ?_⟩
  · rcases key with ⟨ht, heq⟩ | ⟨hf0, heq⟩
    · rw [ht]
      simp only [iff_true]
      refine ⟨idleHandle p.nextId, ?_, ?_, ?_⟩
      · rw [heq]
      · intro x hx
        have := hids x hx
        simp only [idleHandle]
        omega
      · rw [heq]
        rfl
    · rw [hf0]
      constructor
      · rintro ⟨w, hw1, hw2, hw3⟩
        rw [heq] at hw3
        have : (p.connectionCycle.cycle).2.items =
            p.connectionCycle.items ++ [w] := hw3
        rw [cycle_items] at this
        have hlen := congrArg List.length this
        simp at hlen
      · intro hfalse
        cases hfalse
  · intro hsgc
    rcases key with ⟨ht, heq⟩ | ⟨hf0, heq⟩
    · rw [ht] at hsgc
      cases hsgc
    · constructor
      · rw [heq]
      · rw [heq]
        exact cycle_items _
  · decide

/-- C3 counterexample: with `max_pool_size = 0` and an empty rotation the
claim's grow condition holds (the rotation is empty), yet `get_connection`
creates nothing — `_create_connection` is already "at capacity", degrades
to `cycle()` on the empty rotation and returns `None`. -/
theorem C3_counterexample :
    specGrowCond ⟨⟨[], ⟨0⟩⟩, [], false, 0, 0, true⟩ = true ∧
    (ConnectionPool.get_connection ⟨⟨[], ⟨0⟩⟩, [], false, 0, 0, true⟩).1 =
      .ok none ∧
    (ConnectionPool.get_connection
        ⟨⟨[], ⟨0⟩⟩, [], false, 0, 0, true⟩).2.connectionCycle.items = [] := by
  decide

/-- C3 witness: a pool at capacity (max 1, one idle handle) — the grow
condition is false and `get_connection` returns the result of `cycle()`
leaving the rotation unchanged. -/
theorem C3_witness :
    (ConnectionPool.get_connection
        ⟨⟨[idleHandle 0], ⟨0⟩⟩, [idleHandle 0], false, 1, 1, true⟩).1 =
      (ConnectionCycle.cycle ⟨[idleHandle 0], ⟨0⟩⟩).1 ∧
    (ConnectionPool.get_connection
        ⟨⟨[idleHandle 0], ⟨0⟩⟩, [idleHandle 0], false, 1, 1,
          true⟩).2.connectionCycle.items = [idleHandle 0] := by
  have h := C3_admission
    ⟨⟨[idleHandle 0], ⟨0⟩⟩, [idleHandle 0], false, 1, 1, true⟩
    (by decide) rfl (fun _ => by decide) (by decide)
  exact h.2.1 (by decide)

end PythonFramework
